import Mathlib

/-!
Shallow embedding of the BTC graph explorer's address-expansion core:

* the zustand graph store (src/store/graphStore.ts),
* the API route's inbound rate limiter, TTL cache, throttled upstream
  dispatcher and per-call retry loop (src/app/api/blockchain/route.ts),
* the client-side expansion coordinator hook (src/hooks/useBlockchainData.ts).

JS `Date.now()` timestamps are modelled as `Nat` milliseconds; opaque JS
numbers (satoshi values, balances) as `Int`; optional JS object properties
as `Option`.  Spread-merge `{...old, ...new}` is modelled field by field:
a property that is present on the right object overwrites, an absent
(`none`-modelled) property leaves the left object's value in place.
-/

set_option maxHeartbeats 1000000

/-! ## Graph data model (src/types/graph.ts) -/

/-- A stored graph node (interface `GraphNode`).  `balance`,
`totalReceived`, `totalSent`, `transactionCount` are optional in the
TypeScript interface and may be absent on stored nodes (counterpart nodes
are created without them). -/
structure GraphNode where
  id : String
  label : String
  balance : Option Int := none
  totalReceived : Option Int := none
  totalSent : Option Int := none
  transactionCount : Option Nat := none
  isExpanded : Bool
  level : Nat
  loadedTransactions : Nat
  currentOffset : Nat
  hasMoreTransactions : Bool
  deriving Repr, DecidableEq

/-- The object literal passed to `addNode` / `addNodes`.  The pagination
fields are additionally optional here because the store applies `?? 0` /
`?? true` defaults to them when inserting a fresh node, and a spread-merge
only overwrites properties actually present on the argument. -/
structure NodeInput where
  id : String
  label : String
  balance : Option Int := none
  totalReceived : Option Int := none
  totalSent : Option Int := none
  transactionCount : Option Nat := none
  isExpanded : Bool
  level : Nat
  loadedTransactions : Option Nat := none
  currentOffset : Option Nat := none
  hasMoreTransactions : Option Bool := none
  deriving Repr, DecidableEq

/-- A stored graph link (interface `GraphLink`). -/
structure GraphLink where
  source : String
  target : String
  value : Int
  txHash : String
  timestamp : Option Nat := none
  deriving Repr, DecidableEq

structure GraphData where
  nodes : List GraphNode := []
  links : List GraphLink := []
  deriving Repr, DecidableEq

/-- graphStore.ts line 31: the store starts with `{ nodes: [], links: [] }`. -/
def initialGraphData : GraphData := {}

/-- graphStore.ts lines 42-45: `{...existing, ...node}` — every property
present on `inp` overwrites the existing node's value; properties absent
from the argument object survive the merge.  No `??` defaults apply on
this branch. -/
def mergeNode (old : GraphNode) (inp : NodeInput) : GraphNode :=
  { id := inp.id
    label := inp.label
    balance := inp.balance.or old.balance
    totalReceived := inp.totalReceived.or old.totalReceived
    totalSent := inp.totalSent.or old.totalSent
    transactionCount := inp.transactionCount.or old.transactionCount
    isExpanded := inp.isExpanded
    level := inp.level
    loadedTransactions := inp.loadedTransactions.getD old.loadedTransactions
    currentOffset := inp.currentOffset.getD old.currentOffset
    hasMoreTransactions := inp.hasMoreTransactions.getD old.hasMoreTransactions }

/-- graphStore.ts lines 56-61: a node that does not exist yet is inserted
with `?? 0` / `?? 0` / `?? true` pagination defaults. -/
def freshNode (inp : NodeInput) : GraphNode :=
  { id := inp.id
    label := inp.label
    balance := inp.balance
    totalReceived := inp.totalReceived
    totalSent := inp.totalSent
    transactionCount := inp.transactionCount
    isExpanded := inp.isExpanded
    level := inp.level
    loadedTransactions := inp.loadedTransactions.getD 0
    currentOffset := inp.currentOffset.getD 0
    hasMoreTransactions := inp.hasMoreTransactions.getD true }

/-- graphStore.ts `addNode` (lines 35-69): `findIndex` locates the first
node with the same id; if found that node is spread-merged in place,
otherwise the fresh node is appended.  Recursing over the list and
rewriting the first match is equivalent to findIndex-then-set. -/
def addNodeList : List GraphNode → NodeInput → List GraphNode
  | [], inp => [freshNode inp]
  | n :: ns, inp =>
      if n.id == inp.id then mergeNode n inp :: ns else n :: addNodeList ns inp

def addNode (g : GraphData) (inp : NodeInput) : GraphData :=
  { g with nodes := addNodeList g.nodes inp }

/-- graphStore.ts `addNodes` (lines 71-89): the set of existing ids is
computed once from the stored nodes, every batch entry whose id is already
present is dropped, and the remaining entries are appended with fresh-node
defaults.  Entries are never merged into existing nodes. -/
def addNodes (g : GraphData) (batch : List NodeInput) : GraphData :=
  let existingIds := g.nodes.map (fun n => n.id)
  { g with nodes :=
      g.nodes ++ (batch.filter (fun n => !(existingIds.contains n.id))).map freshNode }

/-- graphStore.ts `addLink` (lines 91-97): unconditional append, no
duplicate filtering. -/
def addLink (g : GraphData) (l : GraphLink) : GraphData :=
  { g with links := g.links ++ [l] }

/-- graphStore.ts line 102: the dedup key `\x60${l.source}-${l.target}-${l.txHash}\x60`. -/
def linkKey (l : GraphLink) : String :=
  l.source ++ "-" ++ l.target ++ "-" ++ l.txHash

/-- graphStore.ts `addLinks` (lines 99-111): the key set `existingLinks`
is computed once from the links already stored; batch entries whose key is
in that set are dropped, the rest are appended.  Duplicates inside one
batch are not filtered against each other. -/
def addLinks (g : GraphData) (batch : List GraphLink) : GraphData :=
  let existingLinks := g.links.map linkKey
  { g with links :=
      g.links ++ batch.filter (fun l => !(existingLinks.contains (linkKey l))) }

/-- graphStore.ts `setNodeExpanded` (lines 115-121). -/
def setNodeExpanded (g : GraphData) (nodeId : String) (expanded : Bool) : GraphData :=
  { g with nodes :=
      g.nodes.map (fun n => if n.id == nodeId then { n with isExpanded := expanded } else n) }

/-- graphStore.ts `updateNodePagination` (lines 144-157); the only caller
(useBlockchainData.ts lines 106-110) always supplies all three fields. -/
def updateNodePagination (g : GraphData) (nodeId : String)
    (loaded offset : Nat) (hasMore : Bool) : GraphData :=
  { g with nodes :=
      g.nodes.map (fun n =>
        if n.id == nodeId then
          { n with loadedTransactions := loaded, currentOffset := offset,
                   hasMoreTransactions := hasMore }
        else n) }

/-- graphStore.ts `getNode` (lines 159-161): first node with matching id. -/
def getNode (g : GraphData) (nodeId : String) : Option GraphNode :=
  g.nodes.find? (fun n => n.id == nodeId)

/-- Number of stored links carrying a given (source, target, txHash) triple. -/
def countTriple (ls : List GraphLink) (s t h : String) : Nat :=
  ls.countP (fun l => l.source == s && l.target == t && l.txHash == h)

/-- Number of stored links whose dedup key equals `k`. -/
def countKey (ls : List GraphLink) (k : String) : Nat :=
  ls.countP (fun l => linkKey l == k)

/-! ## C1: link uniqueness -/

lemma countKey_eq_zero_iff (ls : List GraphLink) (k : String) :
    countKey ls k = 0 ↔ ∀ l ∈ ls, linkKey l ≠ k := by
  unfold countKey
  rw [List.countP_eq_zero]
  simp

lemma linkKey_ne_of_txHash_ne (s t : String) (v₁ v₂ : Int) (h₁ h₂ : String)
    (ts₁ ts₂ : Option Nat) (hne : h₁ ≠ h₂) :
    linkKey { source := s, target := t, value := v₁, txHash := h₁, timestamp := ts₁ } ≠
      linkKey { source := s, target := t, value := v₂, txHash := h₂, timestamp := ts₂ } := by
  intro heq
  apply hne
  have hd := congrArg String.data heq
  simp only [linkKey, String.data_append] at hd
  exact String.ext (List.append_cancel_left hd)

/-- C1, counterexample.  The claim asserts that for every sequence of
link-adding operations at most one link with a given
(source, target, txHash) triple is ever stored.  A single `addLinks`
batch containing the same link twice refutes it: the `existingLinks` set
is computed from already-stored links only, so both copies are appended.
(A transaction spending two outputs of the same address produces exactly
such a batch.) -/
theorem claim_C1_counterexample :
    countTriple (addLinks initialGraphData
      [{ source := "a", target := "b", value := 1, txHash := "h" },
       { source := "a", target := "b", value := 1, txHash := "h" }]).links
      "a" "b" "h" = 2 := by
  decide

/-- C1, amended.  `addLinks` deduplicates a batch only against links that
were already stored when the batch arrived, using the string key
source ++ "-" ++ target ++ "-" ++ txHash.  Hence: the number of stored
links with key `k` grows by the batch's `k`-count when `k` is absent and
by zero when `k` is already present (so two successive batches that both
contain a link with the same triple yield exactly one stored copy), and
links with distinct txHash values for the same ordered pair have distinct
keys and are therefore all stored.  Duplicates inside a single batch, and
links added through the singular `addLink`, are not deduplicated. -/
theorem claim_C1_link_dedup (g : GraphData) (batch : List GraphLink) (k : String) :
    (countKey (addLinks g batch).links k =
      countKey g.links k + (if countKey g.links k = 0 then countKey batch k else 0)) ∧
    (∀ (s t : String) (v₁ v₂ : Int) (h₁ h₂ : String) (ts₁ ts₂ : Option Nat), h₁ ≠ h₂ →
      linkKey { source := s, target := t, value := v₁, txHash := h₁, timestamp := ts₁ } ≠
        linkKey { source := s, target := t, value := v₂, txHash := h₂, timestamp := ts₂ }) := by
  refine ⟨?_, fun s t v₁ v₂ h₁ h₂ ts₁ ts₂ hne =>
    linkKey_ne_of_txHash_ne s t v₁ v₂ h₁ h₂ ts₁ ts₂ hne⟩
  show List.countP _ (g.links ++ _) = _
  rw [List.countP_append]
  congr 1
  rw [List.countP_filter]
  by_cases hk : countKey g.links k = 0
  · rw [if_pos hk]
    have hnotin : ((g.links.map linkKey).contains k) = false := by
      rw [← Bool.not_eq_true, List.contains_iff_exists_mem_beq]
      rintro ⟨a, ha, hbeq⟩
      rcases List.mem_map.mp ha with ⟨l', hl', rfl⟩
      exact ((countKey_eq_zero_iff _ _).mp hk) l' hl' (eq_of_beq hbeq).symm
    apply List.countP_congr
    intro x _
    constructor
    · intro h
      rw [Bool.and_eq_true] at h
      exact h.1
    · intro hp
      have hx' : linkKey x = k := eq_of_beq hp
      rw [Bool.and_eq_true]
      refine ⟨hp, ?_⟩
      rw [Bool.not_eq_true', hx', hnotin]
  · rw [if_neg hk]
    rw [List.countP_eq_zero]
    intro x _ hcontra
    rw [Bool.and_eq_true] at hcontra
    rcases hcontra with ⟨hp, hq⟩
    have hx' : linkKey x = k := eq_of_beq hp
    have hpos : 0 < List.countP (fun l => linkKey l == k) g.links :=
      Nat.pos_of_ne_zero hk
    rcases List.countP_pos_iff.mp hpos with ⟨l', hl', hbeq⟩
    have hcont : ((g.links.map linkKey).contains (linkKey x)) = true := by
      rw [List.contains_iff_exists_mem_beq]
      exact ⟨linkKey l', List.mem_map.mpr ⟨l', hl', rfl⟩, by
        rw [hx']
        exact BEq.symm hbeq⟩
    rw [Bool.not_eq_true', hcont] at hq
    cases hq

/-- C1, witness for the amended theorem: two successive batches both
containing the tx-hash `h` link between `a` and `b` store it once; a
second batch with a fresh hash for the same pair adds a second link. -/
theorem claim_C1_link_dedup_witness :
    countKey (addLinks
      (addLinks initialGraphData [{ source := "a", target := "b", value := 1, txHash := "h" }])
      [{ source := "a", target := "b", value := 2, txHash := "h" },
       { source := "a", target := "b", value := 3, txHash := "h2" }]).links
      (linkKey { source := "a", target := "b", value := 1, txHash := "h" }) =
      countKey (addLinks initialGraphData
        [{ source := "a", target := "b", value := 1, txHash := "h" }]).links
        (linkKey { source := "a", target := "b", value := 1, txHash := "h" }) + 0 := by
  have h := (claim_C1_link_dedup
    (addLinks initialGraphData [{ source := "a", target := "b", value := 1, txHash := "h" }])
    [{ source := "a", target := "b", value := 2, txHash := "h" },
     { source := "a", target := "b", value := 3, txHash := "h2" }]
    (linkKey { source := "a", target := "b", value := 1, txHash := "h" })).1
  rw [h]
  decide

/-! ## C10: addNodes leaves existing nodes untouched; only addNode merges -/

lemma addNodeList_find (ns : List GraphNode) (inp : NodeInput) (n0 : GraphNode)
    (h : ns.find? (fun n => n.id == inp.id) = some n0) :
    (addNodeList ns inp).find? (fun n => n.id == inp.id) = some (mergeNode n0 inp) := by
  induction ns with
  | nil => simp at h
  | cons n ns ih =>
    by_cases hn : n.id == inp.id
    · rw [List.find?_cons_of_pos (p := fun x : GraphNode => x.id == inp.id) _ hn] at h
      injection h with h
      subst h
      simp only [addNodeList]
      rw [if_pos hn]
      apply List.find?_cons_of_pos
      simp [mergeNode]
    · rw [List.find?_cons_of_neg (p := fun x : GraphNode => x.id == inp.id) _ hn] at h
      simp only [addNodeList]
      rw [if_neg hn, List.find?_cons_of_neg (p := fun x : GraphNode => x.id == inp.id) _ hn]
      exact ih h

/-- C10.  `addNodes` never rewrites a stored node: the stored list is a
left factor of the result, lookups of already-present ids are unchanged,
and a batch entry whose id already exists is discarded outright (the
count of stored nodes with that id does not grow).  By contrast the
singular `addNode` spread-merges its argument into the first stored node
with the same id. -/
theorem claim_C10_addNodes_frame (g : GraphData) (batch : List NodeInput)
    (inp : NodeInput) (n0 : GraphNode) :
    ((addNodes g batch).nodes.take g.nodes.length = g.nodes) ∧
    (∀ i : String, (getNode g i).isSome → getNode (addNodes g batch) i = getNode g i) ∧
    (∀ i : String, g.nodes.any (fun n => n.id == i) →
      (addNodes g batch).nodes.countP (fun n => n.id == i) =
        g.nodes.countP (fun n => n.id == i)) ∧
    (getNode g inp.id = some n0 → getNode (addNode g inp) inp.id = some (mergeNode n0 inp)) := by
  refine ⟨?_, ?_, ?_, ?_⟩
  · show (g.nodes ++ _).take g.nodes.length = g.nodes
    exact List.take_left g.nodes _
  · intro i hi
    rcases hfind : getNode g i with _ | n
    · rw [hfind] at hi
      cases hi
    · show (g.nodes ++ _).find? _ = _
      rw [List.find?_append, getNode] at *
      rw [hfind]
      rfl
  · intro i hi
    show (g.nodes ++ _).countP _ = _
    rw [List.countP_append, Nat.add_eq_left, List.countP_eq_zero]
    intro x hx
    rcases List.mem_map.mp hx with ⟨b, hb, rfl⟩
    rcases List.mem_filter.mp hb with ⟨_, hkeep⟩
    intro hbeq
    have hbid : b.id = i := by
      simpa [freshNode] using hbeq
    rcases List.any_eq_true.mp hi with ⟨n, hn, hni⟩
    have : (g.nodes.map (fun n => n.id)).contains b.id = true := by
      rw [List.contains_iff_exists_mem_beq]
      refine ⟨n.id, List.mem_map.mpr ⟨n, hn, rfl⟩, ?_⟩
      rw [hbid]
      exact BEq.symm hni
    rw [Bool.not_eq_true', this] at hkeep
    cases hkeep
  · intro h
    exact addNodeList_find g.nodes inp n0 h

/-- C10, witness: a store holding a populated node `X`; a batch that
rediscovers `X` (with different field values) leaves it bit-for-bit
unchanged, while `addNode` with the same input merges the new balance in. -/
theorem claim_C10_witness :
    (getNode { nodes := [{ id := "X", label := "X", isExpanded := true, level := 0,
                           loadedTransactions := 5, currentOffset := 5,
                           hasMoreTransactions := true }], links := [] } "X" =
      some { id := "X", label := "X", isExpanded := true, level := 0,
             loadedTransactions := 5, currentOffset := 5, hasMoreTransactions := true }) ∧
    (getNode (addNode { nodes := [{ id := "X", label := "X", isExpanded := true, level := 0,
                                    loadedTransactions := 5, currentOffset := 5,
                                    hasMoreTransactions := true }], links := [] }
        { id := "X", label := "X...X", balance := some 7, isExpanded := false, level := 2 }) "X" =
      some (mergeNode
        { id := "X", label := "X", isExpanded := true, level := 0,
          loadedTransactions := 5, currentOffset := 5, hasMoreTransactions := true }
        { id := "X", label := "X...X", balance := some 7, isExpanded := false, level := 2 })) := by
  refine ⟨by decide, ?_⟩
  exact (claim_C10_addNodes_frame
    { nodes := [{ id := "X", label := "X", isExpanded := true, level := 0,
                  loadedTransactions := 5, currentOffset := 5,
                  hasMoreTransactions := true }], links := [] } []
    { id := "X", label := "X...X", balance := some 7, isExpanded := false, level := 2 }
    { id := "X", label := "X", isExpanded := true, level := 0,
      loadedTransactions := 5, currentOffset := 5, hasMoreTransactions := true }).2.2.2
    (by decide)

/-! ## Inbound rate limiter (route.ts lines 35-90) -/

def RATE_LIMIT_WINDOW : Nat := 60 * 1000

def MAX_REQUESTS_PER_WINDOW : Nat := 10

structure RateLimitEntry where
  count : Nat
  resetTime : Nat
  deriving Repr, DecidableEq

inductive RateDecision where
  | allowed : RateDecision
  | rejected : (retryAfter : Nat) → RateDecision
  deriving Repr, DecidableEq

/-- route.ts `checkRateLimit` (lines 69-90), for one fixed client key
(the map holds one entry per key; only this key's entry is read or
written).  `Math.ceil((resetTime - now) / 1000)` on nonnegative integers
is `(resetTime - now + 999) / 1000`; the rejected branch has
`now ≤ resetTime`, so the JS subtraction is nonnegative and `Nat`
subtraction agrees. -/
def checkRateLimit (entry : Option RateLimitEntry) (now : Nat) :
    RateDecision × Option RateLimitEntry :=
  match entry with
  | none => (.allowed, some { count := 1, resetTime := now + RATE_LIMIT_WINDOW })
  | some e =>
      if now > e.resetTime then
        (.allowed, some { count := 1, resetTime := now + RATE_LIMIT_WINDOW })
      else if e.count ≥ MAX_REQUESTS_PER_WINDOW then
        (.rejected ((e.resetTime - now + 999) / 1000), some e)
      else
        (.allowed, some { e with count := e.count + 1 })

/-- A sequence of `checkRateLimit` calls for the same key at the given
times, threading the stored entry, collecting the decisions. -/
def rlRun (entry : Option RateLimitEntry) : List Nat → Option RateLimitEntry × List RateDecision
  | [] => (entry, [])
  | t :: ts =>
      ((rlRun (checkRateLimit entry t).2 ts).1,
        (checkRateLimit entry t).1 :: (rlRun (checkRateLimit entry t).2 ts).2)

lemma rlRun_append (e : Option RateLimitEntry) (xs ys : List Nat) :
    rlRun e (xs ++ ys) =
      ((rlRun (rlRun e xs).1 ys).1, (rlRun e xs).2 ++ (rlRun (rlRun e xs).1 ys).2) := by
  induction xs generalizing e with
  | nil => simp [rlRun]
  | cons x xs ih => simp [rlRun, ih]

lemma rlRun_allowed_steps (ts : List Nat) : ∀ (c r : Nat), 1 ≤ c →
    c + ts.length ≤ MAX_REQUESTS_PER_WINDOW → (∀ t ∈ ts, t ≤ r) →
    rlRun (some { count := c, resetTime := r }) ts =
      (some { count := c + ts.length, resetTime := r },
        List.replicate ts.length .allowed) := by
  induction ts with
  | nil =>
    intro c r _ _ _
    simp [rlRun]
  | cons t ts ih =>
    intro c r hc hlen hts
    have hnow : ¬ t > r := by
      have := hts t (List.mem_cons_self t ts)
      omega
    have hcount : ¬ c ≥ MAX_REQUESTS_PER_WINDOW := by
      simp only [List.length_cons, MAX_REQUESTS_PER_WINDOW] at hlen ⊢
      omega
    simp only [rlRun, checkRateLimit, if_neg hnow, if_neg hcount]
    rw [ih (c + 1) r (by omega)
      (by simp only [List.length_cons] at hlen; omega)
      (fun t' ht' => hts t' (List.mem_cons_of_mem t ht'))]
    simp only [List.length_cons, List.replicate_succ]
    have hcc : c + 1 + ts.length = c + (ts.length + 1) := by omega
    rw [hcc]

/-- C2.  For a fixed key, starting from no stored window: the first call
(at `t0`) and the next nine calls (at times not past the window reset
`t0 + 60000`) are all allowed; the eleventh call at `tr` strictly inside
the window is rejected with `retryAfterSeconds = ceil((windowResetAt - tr)/1000) > 0`
and is not counted (the entry still has `count = 10`); a later call at
`tf` past the reset opens a fresh window with `count = 1`. -/
theorem claim_C2_fixed_window (t0 : Nat) (ts : List Nat) (tr tf : Nat)
    (hlen : ts.length = 9)
    (hts : ∀ t ∈ ts, t ≤ t0 + RATE_LIMIT_WINDOW)
    (htr : tr < t0 + RATE_LIMIT_WINDOW)
    (htf : tf > t0 + RATE_LIMIT_WINDOW) :
    rlRun none (t0 :: (ts ++ [tr, tf])) =
      (some { count := 1, resetTime := tf + RATE_LIMIT_WINDOW },
        List.replicate MAX_REQUESTS_PER_WINDOW .allowed ++
          [.rejected ((t0 + RATE_LIMIT_WINDOW - tr + 999) / 1000), .allowed]) ∧
    0 < (t0 + RATE_LIMIT_WINDOW - tr + 999) / 1000 ∧
    (rlRun none (t0 :: (ts ++ [tr]))).1 =
      some { count := MAX_REQUESTS_PER_WINDOW, resetTime := t0 + RATE_LIMIT_WINDOW } := by
  have hfirst : checkRateLimit none t0 =
      (.allowed, some { count := 1, resetTime := t0 + RATE_LIMIT_WINDOW }) := rfl
  have hsteps := rlRun_allowed_steps ts 1 (t0 + RATE_LIMIT_WINDOW) (le_refl 1)
    (by rw [hlen]; decide) hts
  have hrej : checkRateLimit
      (some { count := 1 + ts.length, resetTime := t0 + RATE_LIMIT_WINDOW }) tr =
      (.rejected ((t0 + RATE_LIMIT_WINDOW - tr + 999) / 1000),
        some { count := 1 + ts.length, resetTime := t0 + RATE_LIMIT_WINDOW }) := by
    simp only [checkRateLimit]
    rw [if_neg (by omega), if_pos (by rw [hlen]; decide)]
  have hfresh : ∀ cnt, checkRateLimit
      (some { count := cnt, resetTime := t0 + RATE_LIMIT_WINDOW }) tf =
      (.allowed, some { count := 1, resetTime := tf + RATE_LIMIT_WINDOW }) := by
    intro cnt
    simp only [checkRateLimit]
    rw [if_pos htf]
  refine ⟨?_, by omega, ?_⟩
  · simp only [rlRun, hfirst]
    rw [rlRun_append, hsteps]
    simp only [rlRun, hrej, hfresh]
    rw [hlen]
    rfl
  · simp only [rlRun, hfirst]
    rw [rlRun_append, hsteps]
    simp only [rlRun, hrej]
    rw [hlen]
    rfl

/-- C2, witness: ten calls at time 0, an eleventh at 5 s into the window
(rejected, retry after 55 s, not counted), a twelfth at 70 s (fresh
window, count restarts at 1). -/
theorem claim_C2_witness :
    (List.replicate 9 0).length = 9 ∧
    rlRun none (0 :: (List.replicate 9 0 ++ [5000, 70000])) =
      (some { count := 1, resetTime := 70000 + RATE_LIMIT_WINDOW },
        List.replicate MAX_REQUESTS_PER_WINDOW .allowed ++
          [.rejected 55, .allowed]) := by
  refine ⟨by decide, ?_⟩
  have h := (claim_C2_fixed_window 0 (List.replicate 9 0) 5000 70000
    (by decide) (by decide) (by decide) (by decide)).1
  rw [h]
  decide

/-! ## Upstream payload model (src/types/blockchain.ts) -/

structure PrevOut where
  addr : Option String := none
  value : Int
  deriving Repr, DecidableEq

structure TxInput where
  prev_out : PrevOut
  deriving Repr, DecidableEq

structure TxOutput where
  addr : Option String := none
  value : Int
  spent : Bool := false
  deriving Repr, DecidableEq

structure BitcoinTransaction where
  hash : String
  time : Nat
  inputs : List TxInput
  out : List TxOutput
  deriving Repr, DecidableEq

/-- The `rawaddr` payload (`BlockchainApiResponse` without the gateway's
`cached` annotations). -/
structure AddressData where
  address : String
  n_tx : Nat
  total_received : Int
  total_sent : Int
  final_balance : Int
  txs : List BitcoinTransaction
  deriving Repr, DecidableEq

/-! ## Retry loop (route.ts `fetchFromBlockchain`, lines 168-204) -/

/-- What one `fetch` of the upstream URL observes at a given attempt
index: a parsed JSON body, an HTTP 429 (with the parsed `Retry-After`
header when present), another non-ok status, or a thrown network/parse
error. -/
inductive UpstreamResult where
  | success : AddressData → UpstreamResult
  | tooMany : (retryAfterHdr : Option Nat) → UpstreamResult
  | httpError : (status : Nat) → UpstreamResult
  | netError : (msg : String) → UpstreamResult
  deriving Repr, DecidableEq

/-- The errors `fetchFromBlockchain` can throw, by the `Error` message it
builds: the 429-exhaustion message (which contains "rate limit"), the
non-ok-status message, and a rethrown network error. -/
inductive FetchErr where
  | rateLimitExceeded : (retryAfter : Nat) → FetchErr
  | apiError : (status : Nat) → FetchErr
  | network : (msg : String) → FetchErr
  deriving Repr, DecidableEq

/-- The `for (attempt = 0; attempt < retries; attempt++)` loop.  `fuel`
is `retries - attempt` at every real entry, so the fuel-0 branch is
unreachable for the top-level call; on 429 before the last attempt the
loop sleeps `parseInt(retry-after header or 60) * 1000` ms and retries;
a thrown error (non-ok status or network failure) before the last
attempt sleeps `2^attempt * 1000` ms and retries; at the last attempt
the error is (re)thrown.  The second component is the list of sleeps, in
order. -/
def fetchLoop (oracle : Nat → UpstreamResult) (retries : Nat) :
    (attempt : Nat) → (fuel : Nat) → Except FetchErr AddressData × List Nat
  | _, 0 => (.error (.network "loop exhausted"), [])
  | attempt, fuel + 1 =>
      match oracle attempt with
      | .success d => (.ok d, [])
      | .tooMany hdr =>
          if attempt + 1 < retries then
            ((fetchLoop oracle retries (attempt + 1) fuel).1,
              hdr.getD 60 * 1000 :: (fetchLoop oracle retries (attempt + 1) fuel).2)
          else (.error (.rateLimitExceeded (hdr.getD 60)), [])
      | .httpError st =>
          if attempt + 1 < retries then
            ((fetchLoop oracle retries (attempt + 1) fuel).1,
              2 ^ attempt * 1000 :: (fetchLoop oracle retries (attempt + 1) fuel).2)
          else (.error (.apiError st), [])
      | .netError m =>
          if attempt + 1 < retries then
            ((fetchLoop oracle retries (attempt + 1) fuel).1,
              2 ^ attempt * 1000 :: (fetchLoop oracle retries (attempt + 1) fuel).2)
          else (.error (.network m), [])

def fetchFromBlockchain (oracle : Nat → UpstreamResult) (retries : Nat) :
    Except FetchErr AddressData × List Nat :=
  fetchLoop oracle retries 0 retries

/-- The error `fetchFromBlockchain` surfaces when this attempt result is
its last observation. -/
def lastErrOf : UpstreamResult → FetchErr
  | .success _ => .network "unreachable"
  | .tooMany hdr => .rateLimitExceeded (hdr.getD 60)
  | .httpError st => .apiError st
  | .netError m => .network m

/-! ## Throttled dispatcher (route.ts lines 50-53 and 121-163)

The queue machinery is callback-based single-threaded JS.  It is
modelled as a labelled transition system whose events are the points
where the event loop runs dispatcher code: a `throttledRequest` call
(enqueue, and kick `processQueue` when no processing chain is active,
i.e. nothing is running) and the settlement of the in-flight
`requestFn` (resolve/reject, then `processQueue`).  `executeRequest`'s
wait of `REQUEST_DELAY - (now - lastRequestTime)` and its
`lastRequestTime = Date.now()` assignment at the start of the actual
call are folded into the start transition: a request beginning at wall
time `t` starts at `max t (lastRequestTime + REQUEST_DELAY)`.  Requests
are identified by numeric ids; `starts`, `submits`, `completed` are
histories kept for specification only. -/

def REQUEST_DELAY : Nat := 1500

deriving instance DecidableEq for Except

structure DispState where
  time : Nat
  lastRequestTime : Nat
  queue : List Nat
  running : Option Nat
  starts : List (Nat × Nat)
  submits : List Nat
  completed : List (Nat × Except FetchErr AddressData)
  deriving Repr, DecidableEq

/-- route.ts `processQueue` (lines 152-163) plus the spacing wait at the
head of `executeRequest` (lines 125-132): with an empty queue processing
stops, otherwise the head is dequeued and starts once `REQUEST_DELAY`
has elapsed since the previous start. -/
def startNext (σ : DispState) : DispState :=
  match σ.queue with
  | [] => σ
  | q :: qs =>
      let s := max σ.time (σ.lastRequestTime + REQUEST_DELAY)
      { σ with time := s, lastRequestTime := s, queue := qs,
               running := some q, starts := σ.starts ++ [(q, s)] }

/-- `requestQueue.push` inside `throttledRequest` (line 144). -/
def submitStep (σ : DispState) (id t : Nat) : DispState :=
  { σ with time := t, queue := σ.queue ++ [id], submits := σ.submits ++ [id] }

/-- Settlement of the in-flight call (lines 133-141): `resolve(result)`
or `reject(error)` — the dispatcher behaves identically for both — then
`processQueue()`. -/
def completeStep (σ : DispState) (r : Nat) (res : Except FetchErr AddressData)
    (t : Nat) : DispState :=
  startNext { σ with time := t, running := none, completed := σ.completed ++ [(r, res)] }

inductive DStep : DispState → DispState → Prop where
  | submitBusy (σ : DispState) (id t : Nat) (hb : σ.running.isSome) (ht : σ.time ≤ t) :
      DStep σ (submitStep σ id t)
  | submitIdle (σ : DispState) (id t : Nat) (hi : σ.running = none) (ht : σ.time ≤ t) :
      DStep σ (startNext (submitStep σ id t))
  | complete (σ : DispState) (r : Nat) (res : Except FetchErr AddressData) (t : Nat)
      (hr : σ.running = some r) (ht : σ.time ≤ t) :
      DStep σ (completeStep σ r res t)

/-- route.ts lines 51-53: `lastRequestTime = 0`, empty queue, nothing
processing. -/
def dInit (t0 : Nat) : DispState :=
  { time := t0, lastRequestTime := 0, queue := [], running := none,
    starts := [], submits := [], completed := [] }

inductive DReach : DispState → Prop where
  | init (t0 : Nat) : DReach (dInit t0)
  | step {σ σ' : DispState} : DReach σ → DStep σ σ' → DReach σ'

/-! ## Dispatcher invariants (C5) -/

/-- History/bookkeeping part of the dispatcher invariant. -/
def DPre (σ : DispState) : Prop :=
  σ.lastRequestTime ≤ σ.time ∧
  List.Chain' (fun a b => a + REQUEST_DELAY ≤ b) (σ.starts.map Prod.snd) ∧
  ((σ.starts = [] ∧ σ.lastRequestTime = 0) ∨
    (σ.starts.map Prod.snd).getLast? = some σ.lastRequestTime) ∧
  σ.submits = σ.starts.map Prod.fst ++ σ.queue

def DInv (σ : DispState) : Prop :=
  DPre σ ∧ (σ.running = none → σ.queue = [])

lemma DInv_startNext {σ : DispState} (h : DPre σ) : DInv (startNext σ) := by
  rcases h with ⟨h1, h2, h3, h4⟩
  unfold startNext
  rcases hq : σ.queue with _ | ⟨q, qs⟩
  · exact ⟨⟨h1, h2, h3, h4⟩, fun _ => hq⟩
  · refine ⟨⟨le_refl _, ?_, ?_, ?_⟩, ?_⟩
    · show List.Chain' _ ((σ.starts ++ [(q, _)]).map Prod.snd)
      rw [List.map_append]
      refine List.Chain'.append h2 (List.chain'_singleton _) ?_
      intro x hx y hy
      simp only [List.map_cons, List.map_nil, List.head?_cons, Option.mem_def,
        Option.some.injEq] at hy
      subst hy
      rcases h3 with ⟨hnil, _⟩ | hlast
      · rw [hnil] at hx
        simp at hx
      · rw [hlast] at hx
        simp only [Option.mem_def, Option.some.injEq] at hx
        subst hx
        exact le_max_right _ _
    · right
      show ((σ.starts ++ [(q, _)]).map Prod.snd).getLast? = _
      rw [List.map_append]
      simp
    · show σ.submits = (σ.starts ++ [(q, _)]).map Prod.fst ++ qs
      rw [h4, hq, List.map_append]
      simp
    · intro hr
      simp at hr
  
lemma DInv_step {σ σ' : DispState} (h : DInv σ) (hs : DStep σ σ') : DInv σ' := by
  rcases h with ⟨⟨h1, h2, h3, h4⟩, h5⟩
  cases hs with
  | submitBusy id t hb ht =>
    refine ⟨⟨le_trans h1 ht, h2, h3, ?_⟩, ?_⟩
    · show σ.submits ++ [id] = σ.starts.map Prod.fst ++ (σ.queue ++ [id])
      rw [h4, List.append_assoc]
    · intro hr
      have hnone : σ.running = none := hr
      rw [hnone] at hb
      cases hb
  | submitIdle id t hi ht =>
    apply DInv_startNext
    refine ⟨le_trans h1 ht, h2, h3, ?_⟩
    show σ.submits ++ [id] = σ.starts.map Prod.fst ++ (σ.queue ++ [id])
    rw [h4, List.append_assoc]
  | complete r res t hr ht =>
    exact DInv_startNext ⟨le_trans h1 ht, h2, h3, h4⟩

lemma dInv_of_reach {σ : DispState} (h : DReach σ) : DInv σ := by
  induction h with
  | init t0 => exact ⟨⟨Nat.zero_le t0, List.chain'_nil, Or.inl ⟨rfl, rfl⟩, rfl⟩, fun _ => rfl⟩
  | step _ hstep ih => exact DInv_step ih hstep

/-- C5.  In every reachable dispatcher state: at most one upstream call
is in flight; the sequence of start times is spaced by at least
`REQUEST_DELAY = 1500` ms, measured start-to-start; and the ids started
so far form, in order, an initial segment of the ids submitted so far
(FIFO), the rest being exactly the pending queue.  This holds for every
interleaving of submissions and completions, i.e. regardless of how many
callers submit concurrently. -/
theorem claim_C5_dispatcher_serialization (σ : DispState) (h : DReach σ) :
    σ.running.toList.length ≤ 1 ∧
    List.Chain' (fun a b => a + REQUEST_DELAY ≤ b) (σ.starts.map Prod.snd) ∧
    σ.submits = σ.starts.map Prod.fst ++ σ.queue := by
  rcases dInv_of_reach h with ⟨⟨_, h2, _, h4⟩, _⟩
  refine ⟨?_, h2, h4⟩
  rcases hr : σ.running with _ | r <;> simp [hr]

def emptyAddressData : AddressData :=
  { address := "a", n_tx := 0, total_received := 0, total_sent := 0,
    final_balance := 0, txs := [] }

/-- C5, witness: submit request 1 at t=0 on an idle dispatcher (it starts
at 1500 after the initial spacing), submit request 2 at t=1600 while 1 is
in flight, complete request 1 at t=2000 — request 2 starts at 3000,
exactly `REQUEST_DELAY` after request 1's start. -/
theorem claim_C5_witness :
    DReach (completeStep (submitStep (startNext (submitStep (dInit 0) 1 0)) 2 1600)
      1 (.ok emptyAddressData) 2000) ∧
    ((completeStep (submitStep (startNext (submitStep (dInit 0) 1 0)) 2 1600)
        1 (.ok emptyAddressData) 2000).running.toList.length ≤ 1 ∧
      List.Chain' (fun a b => a + REQUEST_DELAY ≤ b)
        ((completeStep (submitStep (startNext (submitStep (dInit 0) 1 0)) 2 1600)
          1 (.ok emptyAddressData) 2000).starts.map Prod.snd) ∧
      (completeStep (submitStep (startNext (submitStep (dInit 0) 1 0)) 2 1600)
        1 (.ok emptyAddressData) 2000).submits =
        (completeStep (submitStep (startNext (submitStep (dInit 0) 1 0)) 2 1600)
          1 (.ok emptyAddressData) 2000).starts.map Prod.fst ++
          (completeStep (submitStep (startNext (submitStep (dInit 0) 1 0)) 2 1600)
            1 (.ok emptyAddressData) 2000).queue) := by
  have hreach : DReach (completeStep (submitStep (startNext (submitStep (dInit 0) 1 0)) 2 1600)
      1 (.ok emptyAddressData) 2000) :=
    DReach.step
      (DReach.step
        (DReach.step (DReach.init 0) (DStep.submitIdle (dInit 0) 1 0 rfl (Nat.le_refl 0)))
        (DStep.submitBusy (startNext (submitStep (dInit 0) 1 0)) 2 1600 (by decide) (by decide)))
      (DStep.complete (submitStep (startNext (submitStep (dInit 0) 1 0)) 2 1600)
        1 (.ok emptyAddressData) 2000 (by decide) (by decide))
  exact ⟨hreach, claim_C5_dispatcher_serialization _ hreach⟩

/-! ## C4: per-call retry policy -/

lemma fetchLoop_fail_step (oracle : Nat → UpstreamResult) (attempt fuel : Nat)
    (hne : ∀ d, oracle attempt ≠ .success d) (hlt : attempt + 1 < 3) :
    (fetchLoop oracle 3 attempt (fuel + 1)).1 = (fetchLoop oracle 3 (attempt + 1) fuel).1 := by
  rcases h : oracle attempt with d | hdr | st | m
  · exact absurd h (hne d)
  · simp only [fetchLoop, h]
    rw [if_pos hlt]
  · simp only [fetchLoop, h]
    rw [if_pos hlt]
  · simp only [fetchLoop, h]
    rw [if_pos hlt]

lemma fetchLoop_last (oracle : Nat → UpstreamResult) (fuel : Nat)
    (hne : ∀ d, oracle 2 ≠ .success d) :
    (fetchLoop oracle 3 2 (fuel + 1)).1 = .error (lastErrOf (oracle 2)) := by
  rcases h : oracle 2 with d | hdr | st | m
  · exact absurd h (hne d)
  · simp only [fetchLoop, h, lastErrOf]
    rw [if_neg (by omega)]
  · simp only [fetchLoop, h, lastErrOf]
    rw [if_neg (by omega)]
  · simp only [fetchLoop, h, lastErrOf]
    rw [if_neg (by omega)]

/-- C4.  Per queued call, with the route's fixed `retries = 3`:
an HTTP 429 before the last attempt sleeps the server-supplied
`Retry-After` (60 s when the header is absent) and retries; any other
failure before the last attempt sleeps `2^attempt` seconds and retries;
when all three attempts fail the call surfaces the last observed error;
and completing a call — with a failure just as with a success — always
dequeues and starts the next queued call, so one caller's exhaustion
never stalls the queue. -/
theorem claim_C4_retry_policy (oracle : Nat → UpstreamResult) :
    (∀ attempt fuel hdr, attempt + 1 < 3 → oracle attempt = .tooMany hdr →
      fetchLoop oracle 3 attempt (fuel + 1) =
        ((fetchLoop oracle 3 (attempt + 1) fuel).1,
          hdr.getD 60 * 1000 :: (fetchLoop oracle 3 (attempt + 1) fuel).2)) ∧
    (∀ attempt fuel st, attempt + 1 < 3 → oracle attempt = .httpError st →
      fetchLoop oracle 3 attempt (fuel + 1) =
        ((fetchLoop oracle 3 (attempt + 1) fuel).1,
          2 ^ attempt * 1000 :: (fetchLoop oracle 3 (attempt + 1) fuel).2)) ∧
    (∀ attempt fuel m, attempt + 1 < 3 → oracle attempt = .netError m →
      fetchLoop oracle 3 attempt (fuel + 1) =
        ((fetchLoop oracle 3 (attempt + 1) fuel).1,
          2 ^ attempt * 1000 :: (fetchLoop oracle 3 (attempt + 1) fuel).2)) ∧
    ((∀ i, i < 3 → ∀ d, oracle i ≠ .success d) →
      (fetchFromBlockchain oracle 3).1 = .error (lastErrOf (oracle 2))) ∧
    (∀ (σ : DispState) (r q : Nat) (qs : List Nat)
        (res : Except FetchErr AddressData) (t : Nat),
      σ.queue = q :: qs →
        (completeStep σ r res t).running = some q ∧
        (completeStep σ r res t).starts =
          σ.starts ++ [(q, max t (σ.lastRequestTime + REQUEST_DELAY))]) := by
  refine ⟨?_, ?_, ?_, ?_, ?_⟩
  · intro attempt fuel hdr hlt h
    simp only [fetchLoop, h]
    rw [if_pos hlt]
  · intro attempt fuel st hlt h
    simp only [fetchLoop, h]
    rw [if_pos hlt]
  · intro attempt fuel m hlt h
    simp only [fetchLoop, h]
    rw [if_pos hlt]
  · intro hfail
    show (fetchLoop oracle 3 0 (2 + 1)).1 = _
    rw [fetchLoop_fail_step oracle 0 2 (fun d => hfail 0 (by omega) d) (by omega)]
    show (fetchLoop oracle 3 1 (1 + 1)).1 = _
    rw [fetchLoop_fail_step oracle 1 1 (fun d => hfail 1 (by omega) d) (by omega)]
    show (fetchLoop oracle 3 2 (0 + 1)).1 = _
    exact fetchLoop_last oracle 0 (fun d => hfail 2 (by omega) d)
  · intro σ r q qs res t hq
    constructor
    · simp only [completeStep, startNext, hq]
    · simp only [completeStep, startNext, hq]

/-- Oracle for the C4 witness: first attempt is rate-limited with a
parsed Retry-After of 7 s, every later attempt succeeds. -/
def oracleC4 : Nat → UpstreamResult := fun i =>
  if i = 0 then .tooMany (some 7) else .success emptyAddressData

/-- C4, witness: the first 429 causes a 7000 ms sleep and a retry which
succeeds. -/
theorem claim_C4_witness :
    (0 + 1 < 3 ∧ oracleC4 0 = .tooMany (some 7)) ∧
    fetchLoop oracleC4 3 0 (2 + 1) =
      ((fetchLoop oracleC4 3 (0 + 1) 2).1,
        (some 7).getD 60 * 1000 :: (fetchLoop oracleC4 3 (0 + 1) 2).2) :=
  ⟨⟨by omega, rfl⟩, (claim_C4_retry_policy oracleC4).1 0 2 (some 7) (by omega) rfl⟩

/-! ## TTL cache and gateway (route.ts lines 30-116 and 210-338) -/

def CACHE_TTL : Nat := 5 * 60 * 1000

structure CacheEntry where
  data : AddressData
  timestamp : Nat
  deriving Repr, DecidableEq

/-- The JS `Map` in insertion order. -/
abbrev Cache := List (String × CacheEntry)

/-- route.ts `getCachedData` (lines 95-106), returning the whole entry
(the route separately reads `cache.get(key)?.timestamp` for the hit
response, which is this same entry).  A stale entry is deleted as a side
effect.  `now - timestamp` is nonnegative in JS because `timestamp` was
an earlier `Date.now()`, so `Nat` subtraction agrees. -/
def getCachedData (cache : Cache) (key : String) (now : Nat) :
    Option CacheEntry × Cache :=
  match cache.find? (fun kv => kv.1 == key) with
  | none => (none, cache)
  | some kv =>
      if now - kv.2.timestamp > CACHE_TTL then
        (none, cache.filter (fun kv' => kv'.1 != key))
      else (some kv.2, cache)

/-- route.ts `setCachedData` (lines 111-116): `Map.set` overwrites an
existing binding in place, else appends. -/
def setCachedData (cache : Cache) (key : String) (d : AddressData) (now : Nat) : Cache :=
  if cache.any (fun kv => kv.1 == key) then
    cache.map (fun kv => if kv.1 == key then (key, ⟨d, now⟩) else kv)
  else cache ++ [(key, ⟨d, now⟩)]

/-- Observable side effects of one GET, in program order. -/
inductive GwEffect where
  | rlCheck | cacheRead | upstreamCall | cacheWrite
  deriving Repr, DecidableEq

inductive GwResponse where
  | badRequest : GwResponse
  | tooManyLocal : (retryAfter : Nat) → GwResponse
  | okCached : AddressData → (cacheTimestamp : Nat) → GwResponse
  | okFresh : AddressData → GwResponse
  | tooManyUpstream : (retryAfter : Nat) → GwResponse
  | serverError : FetchErr → GwResponse
  deriving Repr, DecidableEq

structure GwResult where
  response : GwResponse
  rl : Option RateLimitEntry
  cache : Cache
  effects : List GwEffect
  deriving Repr, DecidableEq

/-- route.ts line 262: `const cacheKey = \x60${address}-${limit}-${offset}\x60`. -/
def cacheKeyOf (address : String) (limit offset : Nat) : String :=
  address ++ "-" ++ toString limit ++ "-" ++ toString offset

/-- route.ts `GET` (lines 210-338) for one request, with the rate-limit
map restricted to the requesting client's entry and the upstream fetch
modelled by `oracle` (the dispatcher's queue wait does not change the
handler's decisions, which are all taken at `now`).  JS `!address` is
true for a missing and for an empty `address` parameter.  Of the errors
`fetchFromBlockchain` throws, exactly the 429-exhaustion message contains
the substring "rate limit" tested on line 319, giving the upstream-429
branch; the rest fall to the 500 branch. -/
def gatewayGET (address : Option String) (limit offset : Nat)
    (rl : Option RateLimitEntry) (cache : Cache)
    (oracle : Nat → UpstreamResult) (now : Nat) : GwResult :=
  match address with
  | none => { response := .badRequest, rl := rl, cache := cache, effects := [] }
  | some a =>
      if a == "" then { response := .badRequest, rl := rl, cache := cache, effects := [] }
      else
        match (checkRateLimit rl now).1 with
        | .rejected ra =>
            { response := .tooManyLocal ra, rl := (checkRateLimit rl now).2,
              cache := cache, effects := [.rlCheck] }
        | .allowed =>
            match (getCachedData cache (cacheKeyOf a limit offset) now).1 with
            | some entry =>
                { response := .okCached entry.data entry.timestamp,
                  rl := (checkRateLimit rl now).2,
                  cache := (getCachedData cache (cacheKeyOf a limit offset) now).2,
                  effects := [.rlCheck, .cacheRead] }
            | none =>
                match (fetchFromBlockchain oracle 3).1 with
                | .ok d =>
                    { response := .okFresh d, rl := (checkRateLimit rl now).2,
                      cache := setCachedData
                        (getCachedData cache (cacheKeyOf a limit offset) now).2
                        (cacheKeyOf a limit offset) d now,
                      effects := [.rlCheck, .cacheRead, .upstreamCall, .cacheWrite] }
                | .error (.rateLimitExceeded ra) =>
                    { response := .tooManyUpstream ra, rl := (checkRateLimit rl now).2,
                      cache := (getCachedData cache (cacheKeyOf a limit offset) now).2,
                      effects := [.rlCheck, .cacheRead, .upstreamCall] }
                | .error e =>
                    { response := .serverError e, rl := (checkRateLimit rl now).2,
                      cache := (getCachedData cache (cacheKeyOf a limit offset) now).2,
                      effects := [.rlCheck, .cacheRead, .upstreamCall] }

/-! ## C3: gateway step ordering -/

/-- C3.  (1) A missing (JS-falsy) address yields 400 with no effects at
all — the limiter is not consulted (its entry is unchanged) and the
cache is untouched.  (2) If the limiter rejects, the response is 429
carrying the limiter's own retryAfter, with no cache read and no
upstream work.  (3) On a fresh cache hit for the key
(address, limit, offset), the cached payload and its timestamp are
returned and no upstream call is made.  (4) On a miss, the upstream
fetch runs, its payload is stored under the key, and it is returned as
non-cached. -/
theorem claim_C3_gateway_order (limit offset : Nat) (rl : Option RateLimitEntry)
    (cache : Cache) (oracle : Nat → UpstreamResult) (now : Nat) :
    ((gatewayGET none limit offset rl cache oracle now).response = .badRequest ∧
      (gatewayGET none limit offset rl cache oracle now).effects = [] ∧
      (gatewayGET none limit offset rl cache oracle now).rl = rl ∧
      (gatewayGET none limit offset rl cache oracle now).cache = cache) ∧
    (∀ a : String, a ≠ "" →
      (∀ ra, (checkRateLimit rl now).1 = .rejected ra →
        (gatewayGET (some a) limit offset rl cache oracle now).response = .tooManyLocal ra ∧
        (gatewayGET (some a) limit offset rl cache oracle now).effects = [.rlCheck] ∧
        (gatewayGET (some a) limit offset rl cache oracle now).cache = cache) ∧
      (∀ entry, (checkRateLimit rl now).1 = .allowed →
        (getCachedData cache (cacheKeyOf a limit offset) now).1 = some entry →
        (gatewayGET (some a) limit offset rl cache oracle now).response =
          .okCached entry.data entry.timestamp ∧
        (gatewayGET (some a) limit offset rl cache oracle now).effects =
          [.rlCheck, .cacheRead]) ∧
      (∀ d, (checkRateLimit rl now).1 = .allowed →
        (getCachedData cache (cacheKeyOf a limit offset) now).1 = none →
        (fetchFromBlockchain oracle 3).1 = .ok d →
        (gatewayGET (some a) limit offset rl cache oracle now).response = .okFresh d ∧
        (gatewayGET (some a) limit offset rl cache oracle now).effects =
          [.rlCheck, .cacheRead, .upstreamCall, .cacheWrite] ∧
        (gatewayGET (some a) limit offset rl cache oracle now).cache =
          setCachedData (getCachedData cache (cacheKeyOf a limit offset) now).2
            (cacheKeyOf a limit offset) d now)) := by
  refine ⟨⟨rfl, rfl, rfl, rfl⟩, ?_⟩
  intro a ha
  have hbeq : (a == "") = false := beq_eq_false_iff_ne.mpr ha
  refine ⟨?_, ?_, ?_⟩
  · intro ra hrl
    simp only [gatewayGET, hbeq, Bool.false_eq_true, if_false, hrl]
    exact ⟨trivial, trivial, trivial⟩
  · intro entry hrl hhit
    simp only [gatewayGET, hbeq, Bool.false_eq_true, if_false, hrl, hhit]
    exact ⟨trivial, trivial⟩
  · intro d hrl hmiss hok
    simp only [gatewayGET, hbeq, Bool.false_eq_true, if_false, hrl, hmiss, hok]
    exact ⟨trivial, trivial, trivial⟩

/-- C3, witness: empty limiter state and empty cache; the request for
"addr" is allowed, misses, fetches upstream successfully and stores the
payload. -/
theorem claim_C3_witness :
    (("addr" : String) ≠ "" ∧
      (checkRateLimit none 0).1 = .allowed ∧
      (getCachedData [] (cacheKeyOf "addr" 10 0) 0).1 = none ∧
      (fetchFromBlockchain (fun _ => .success emptyAddressData) 3).1 = .ok emptyAddressData) ∧
    ((gatewayGET (some "addr") 10 0 none [] (fun _ => .success emptyAddressData) 0).response =
        .okFresh emptyAddressData ∧
      (gatewayGET (some "addr") 10 0 none [] (fun _ => .success emptyAddressData) 0).effects =
        [.rlCheck, .cacheRead, .upstreamCall, .cacheWrite] ∧
      (gatewayGET (some "addr") 10 0 none [] (fun _ => .success emptyAddressData) 0).cache =
        setCachedData (getCachedData [] (cacheKeyOf "addr" 10 0) 0).2
          (cacheKeyOf "addr" 10 0) emptyAddressData 0) :=
  ⟨⟨by decide, rfl, rfl, rfl⟩,
    ((claim_C3_gateway_order 10 0 none [] (fun _ => .success emptyAddressData) 0).2
      "addr" (by decide)).2.2 emptyAddressData rfl rfl rfl⟩

/-! ## Expansion coordinator (src/hooks/useBlockchainData.ts)

The hook's async `loadAddressData` is embedded in two phases split at its
single `await`: `beginLoad` (guard check and in-flight marking, lines
49-58) and the post-fetch continuation (`applySuccess` / `applyFailure`
plus the `finally` block, lines 64-235).  `loadAddressData` itself is
their sequential composition with the fetch outcome supplied as a value;
an interleaved second call for the same address lands between the two
phases, i.e. against `(beginLoad s a).1`.  The external log store
(`addLog`) is out of the modelled state. -/

def DEFAULT_TRANSACTION_LIMIT : Nat := 10

structure HookState where
  graphData : GraphData
  loadingNodes : List String := []
  isLoading : Bool := false
  error : Option String := none
  deriving Repr, DecidableEq

/-- graphStore.ts `isNodeLoading` (line 134). -/
def isNodeLoading (s : HookState) (address : String) : Bool :=
  s.loadingNodes.contains address

/-- graphStore.ts `setNodeLoading` (lines 123-132): `Set.add` /
`Set.delete` on the loading set. -/
def setNodeLoading (s : HookState) (address : String) (loading : Bool) : HookState :=
  if loading then
    if s.loadingNodes.contains address then s
    else { s with loadingNodes := address :: s.loadingNodes }
  else { s with loadingNodes := s.loadingNodes.filter (fun a => a != address) }

/-- useBlockchainData.ts `shortenAddress` (lines 26-29). -/
def shortenAddress (address : String) : String :=
  if address.length ≤ 12 then address
  else address.take 6 ++ "..." ++ address.drop (address.length - 6)

/-- The main-node object literal (lines 88-100).  JS `<` on numbers is
`Nat.lt` here; `offset + txs.length < n_tx` decides `hasMoreTransactions`. -/
def mainNodeInput (address : String) (level offset : Nat) (d : AddressData) : NodeInput :=
  { id := address, label := shortenAddress address,
    balance := some d.final_balance,
    totalReceived := some d.total_received,
    totalSent := some d.total_sent,
    transactionCount := some d.n_tx,
    isExpanded := false, level := level,
    loadedTransactions := some d.txs.length,
    currentOffset := some (offset + d.txs.length),
    hasMoreTransactions := some (decide (offset + d.txs.length < d.n_tx)) }

/-- The counterpart-node object literal (lines 131-139 and 162-170);
called with `level + 1` by both sites. -/
def relatedNodeInput (address : String) (level : Nat) : NodeInput :=
  { id := address, label := shortenAddress address, isExpanded := false, level := level,
    loadedTransactions := some 0, currentOffset := some 0,
    hasMoreTransactions := some true }

structure ExtractAcc where
  processed : List String
  nodes : List NodeInput
  links : List GraphLink
  deriving Repr, DecidableEq

/-- Lines 123-151: one entry of `tx.inputs`. -/
def processInput (address : String) (level : Nat) (tx : BitcoinTransaction)
    (acc : ExtractAcc) (inp : TxInput) : ExtractAcc :=
  match inp.prev_out.addr with
  | none => acc
  | some inputAddr =>
      if inputAddr == address then acc
      else
        let acc' :=
          if acc.processed.contains inputAddr then acc
          else { acc with nodes := acc.nodes ++ [relatedNodeInput inputAddr (level + 1)],
                          processed := inputAddr :: acc.processed }
        { acc' with links := acc'.links ++
            [{ source := inputAddr, target := address, value := inp.prev_out.value,
               txHash := tx.hash, timestamp := some tx.time }] }

/-- Lines 154-182: one entry of `tx.out`. -/
def processOutput (address : String) (level : Nat) (tx : BitcoinTransaction)
    (acc : ExtractAcc) (o : TxOutput) : ExtractAcc :=
  match o.addr with
  | none => acc
  | some outputAddr =>
      if outputAddr == address then acc
      else
        let acc' :=
          if acc.processed.contains outputAddr then acc
          else { acc with nodes := acc.nodes ++ [relatedNodeInput outputAddr (level + 1)],
                          processed := outputAddr :: acc.processed }
        { acc' with links := acc'.links ++
            [{ source := address, target := outputAddr, value := o.value,
               txHash := tx.hash, timestamp := some tx.time }] }

def processTx (address : String) (level : Nat) (acc : ExtractAcc)
    (tx : BitcoinTransaction) : ExtractAcc :=
  tx.out.foldl (processOutput address level tx)
    (tx.inputs.foldl (processInput address level tx) acc)

/-- Lines 114-183: walk all transactions; `processedAddresses` starts as
`{address}`. -/
def extractRelated (address : String) (level : Nat)
    (txs : List BitcoinTransaction) : ExtractAcc :=
  txs.foldl (processTx address level) { processed := [address], nodes := [], links := [] }

/-- Lines 49-58: the single-flight guard and in-flight marking, up to
the `await`.  The Bool is true iff a fetch was issued. -/
def beginLoad (s : HookState) (address : String) : HookState × Bool :=
  if isNodeLoading s address then (s, false)
  else ({ setNodeLoading s address true with isLoading := true, error := none }, true)

/-- Lines 86-201: the success continuation. -/
def applySuccess (s : HookState) (address : String) (level offset : Nat)
    (isLoadMore : Bool) (d : AddressData) : HookState :=
  let g0 := s.graphData
  let g1 :=
    if !isLoadMore then addNode g0 (mainNodeInput address level offset d)
    else updateNodePagination g0 address
      (((getNode g0 address).map (fun n => n.loadedTransactions)).getD 0 + d.txs.length)
      (offset + d.txs.length)
      (decide (offset + d.txs.length < d.n_tx))
  let ext := extractRelated address level d.txs
  let g2 := addLinks (addNodes g1 ext.nodes) ext.links
  let g3 := if !isLoadMore then setNodeExpanded g2 address true else g2
  { s with graphData := g3 }

/-- Lines 203-230: the failure continuation (logging aside, only
`setError`). -/
def applyFailure (s : HookState) (msg : String) : HookState :=
  { s with error := some msg }

/-- Lines 231-235: the `finally` block. -/
def finishLoad (s : HookState) (address : String) : HookState :=
  { setNodeLoading s address false with isLoading := false }

/-- useBlockchainData.ts `loadAddressData` (lines 41-238) run to
completion, the fetch outcome given by `fetchResult`; the Bool reports
whether a fetch was issued (false = guarded no-op). -/
def loadAddressData (s : HookState) (address : String) (level limit offset : Nat)
    (isLoadMore : Bool) (fetchResult : Except String AddressData) : HookState × Bool :=
  if isNodeLoading s address then (s, false)
  else
    let s1 := (beginLoad s address).1
    let s2 := match fetchResult with
      | .ok d => applySuccess s1 address level offset isLoadMore d
      | .error msg => applyFailure s1 msg
    (finishLoad s2 address, true)

/-- useBlockchainData.ts `loadInitialAddress` (lines 243-255).  JS
`!address` is subsumed by `address.length < 26` but kept for fidelity. -/
def loadInitialAddress (s : HookState) (address : String)
    (fetchResult : Except String AddressData) : HookState × Bool :=
  if address == "" ∨ address.length < 26 ∨ 35 < address.length then
    ({ s with error := some "Invalid Bitcoin address format" }, false)
  else
    loadAddressData s address 0 DEFAULT_TRANSACTION_LIMIT 0 false fetchResult

/-- useBlockchainData.ts `expandNode` (lines 260-265). -/
def expandNode (s : HookState) (address : String) (currentLevel : Nat)
    (fetchResult : Except String AddressData) : HookState × Bool :=
  loadAddressData s address (currentLevel + 1) DEFAULT_TRANSACTION_LIMIT 0 false fetchResult

/-- useBlockchainData.ts `loadMoreTransactions` (lines 270-294). -/
def loadMoreTransactions (s : HookState) (address : String)
    (fetchResult : Except String AddressData) : HookState × Bool :=
  match getNode s.graphData address with
  | none => (s, false)
  | some node =>
      if !node.hasMoreTransactions then (s, false)
      else loadAddressData s address node.level DEFAULT_TRANSACTION_LIMIT
        node.currentOffset true fetchResult

/-- The Expansion Coordinator's `loadInitial` as the spec words it
(section 4.5): reject an address outside the minimal length bounds with
a format error and do nothing else; otherwise perform the equivalent of
an expand of that address at level 0, offset 0 (the expand body — a
guarded first-page `loadAddressData` — instantiated at level 0,
offset 0). -/
def loadInitialSpec (s : HookState) (address : String)
    (fetchResult : Except String AddressData) : HookState × Bool :=
  if 26 ≤ address.length ∧ address.length ≤ 35 then
    loadAddressData s address 0 DEFAULT_TRANSACTION_LIMIT 0 false fetchResult
  else ({ s with error := some "Invalid Bitcoin address format" }, false)

/-! ## C6: per-address single-flight guard -/

lemma contains_filter_ne (l : List String) (address : String) :
    (l.filter (fun a => a != address)).contains address = false := by
  rw [← Bool.not_eq_true, List.contains_iff_exists_mem_beq]
  rintro ⟨a, ha, hbeq⟩
  rcases List.mem_filter.mp ha with ⟨_, hne⟩
  rw [bne_iff_ne] at hne
  exact hne (eq_of_beq hbeq).symm

/-- C6.  (1) A `loadAddressData` call for an address already marked
in-flight returns immediately: no fetch is issued and the state is
completely untouched.  (2) From an idle address, the first call passes
the guard, marks the address in-flight (and will fetch); a second call
arriving while the first is awaiting its fetch — i.e. running against
the first call's post-guard state — is a no-op issuing no fetch, so two
rapid calls issue exactly one fetch.  (3) A call that ran (guard was
clear) always leaves the in-flight flag cleared, whether the fetch
result `f` was a success or a failure. -/
theorem claim_C6_single_flight (s : HookState) (address : String)
    (level limit offset : Nat) (lm : Bool) (f f' : Except String AddressData) :
    (isNodeLoading s address = true →
      loadAddressData s address level limit offset lm f = (s, false)) ∧
    (isNodeLoading s address = false →
      (beginLoad s address).2 = true ∧
      isNodeLoading (beginLoad s address).1 address = true ∧
      loadAddressData (beginLoad s address).1 address level limit offset lm f' =
        ((beginLoad s address).1, false)) ∧
    (isNodeLoading s address = false →
      isNodeLoading (loadAddressData s address level limit offset lm f).1 address = false) := by
  refine ⟨?_, ?_, ?_⟩
  · intro h
    unfold loadAddressData
    rw [if_pos h]
  · intro h
    have h' : s.loadingNodes.contains address = false := h
    have hni : ¬ (isNodeLoading s address = true) := by simp [h]
    have hmem : address ∉ s.loadingNodes := by simpa using h'
    have hflag : isNodeLoading (beginLoad s address).1 address = true := by
      simp [beginLoad, setNodeLoading, isNodeLoading, hni, hmem]
    refine ⟨?_, hflag, ?_⟩
    · unfold beginLoad
      rw [if_neg hni]
    · unfold loadAddressData
      rw [if_pos hflag]
  · intro h
    have hni : ¬ (isNodeLoading s address = true) := by simp [h]
    unfold loadAddressData
    rw [if_neg hni]
    show isNodeLoading (finishLoad _ address) address = false
    show (_ : HookState).loadingNodes.contains address = false
    exact contains_filter_ne _ address

/-- C6, witness: two back-to-back `expand`-style calls for "x" from an
idle state — the first marks "x" in-flight and fetches, the second is a
no-op. -/
theorem claim_C6_witness :
    isNodeLoading { graphData := initialGraphData } "x" = false ∧
    ((beginLoad { graphData := initialGraphData } "x").2 = true ∧
      isNodeLoading (beginLoad { graphData := initialGraphData } "x").1 "x" = true ∧
      loadAddressData (beginLoad { graphData := initialGraphData } "x").1 "x" 1 10 0 false
          (.ok emptyAddressData) =
        ((beginLoad { graphData := initialGraphData } "x").1, false)) :=
  ⟨rfl, (claim_C6_single_flight { graphData := initialGraphData } "x" 1 10 0 false
    (.ok emptyAddressData) (.ok emptyAddressData)).2.1 rfl⟩

/-! ## C9: loadInitial refines the spec's contract -/

/-- C9.  `loadInitialAddress` equals the spec-worded `loadInitialSpec`:
an address outside the 26..35 length bounds only records the format
error (no fetch, graph and loading set untouched), and an address within
the bounds performs exactly the guarded first-page load at level 0,
offset 0 that `expandNode` performs at its own level. -/
theorem claim_C9_loadInitial (s : HookState) (address : String)
    (f : Except String AddressData) :
    loadInitialAddress s address f = loadInitialSpec s address f ∧
    ((address.length < 26 ∨ 35 < address.length) →
      loadInitialAddress s address f =
        ({ s with error := some "Invalid Bitcoin address format" }, false)) ∧
    (26 ≤ address.length → address.length ≤ 35 →
      loadInitialAddress s address f =
        loadAddressData s address 0 DEFAULT_TRANSACTION_LIMIT 0 false f) := by
  by_cases hin : 26 ≤ address.length ∧ address.length ≤ 35
  · rcases hin with ⟨h1, h2⟩
    have hcond : ¬ (address == "" ∨ address.length < 26 ∨ 35 < address.length) := by
      rintro (hb | hlt | hgt)
      · have hempty : address = "" := eq_of_beq hb
        rw [hempty] at h1
        simp at h1
      · omega
      · omega
    refine ⟨?_, ?_, fun _ _ => ?_⟩
    · unfold loadInitialAddress loadInitialSpec
      rw [if_neg hcond, if_pos ⟨h1, h2⟩]
    · intro hout
      rcases hout with hlt | hgt
      · omega
      · omega
    · unfold loadInitialAddress
      rw [if_neg hcond]
  · have hcond : (address == "" ∨ address.length < 26 ∨ 35 < address.length) := by
      rcases Nat.lt_or_ge address.length 26 with hlt | hge
      · exact Or.inr (Or.inl hlt)
      · refine Or.inr (Or.inr ?_)
        rcases Nat.lt_or_ge 35 address.length with hgt | hle
        · exact hgt
        · exact absurd ⟨hge, hle⟩ hin
    refine ⟨?_, fun _ => ?_, fun hl1 hl2 => absurd ⟨hl1, hl2⟩ hin⟩
    · unfold loadInitialAddress loadInitialSpec
      rw [if_pos hcond, if_neg hin]
    · unfold loadInitialAddress
      rw [if_pos hcond]

/-- C9, witness: a 30-character address is within bounds and is loaded
exactly as an expand at level 0, offset 0; a 10-character one is
rejected with the format error and no fetch. -/
theorem claim_C9_witness :
    (26 ≤ ("123456789012345678901234567890" : String).length ∧
      ("123456789012345678901234567890" : String).length ≤ 35) ∧
    loadInitialAddress { graphData := initialGraphData } "123456789012345678901234567890"
        (.ok emptyAddressData) =
      loadAddressData { graphData := initialGraphData } "123456789012345678901234567890"
        0 DEFAULT_TRANSACTION_LIMIT 0 false (.ok emptyAddressData) :=
  ⟨⟨by decide, by decide⟩,
    (claim_C9_loadInitial { graphData := initialGraphData } "123456789012345678901234567890"
      (.ok emptyAddressData)).2.2 (by decide) (by decide)⟩

/-! ## Lookup lemmas for the graph pipeline (C7, C8) -/

lemma addNodeList_find_none (ns : List GraphNode) (inp : NodeInput)
    (h : ns.find? (fun n => n.id == inp.id) = none) :
    (addNodeList ns inp).find? (fun n => n.id == inp.id) = some (freshNode inp) := by
  induction ns with
  | nil =>
    apply List.find?_cons_of_pos
    simp [freshNode]
  | cons n ns ih =>
    by_cases hn : n.id == inp.id
    · rw [List.find?_cons_of_pos (p := fun x : GraphNode => x.id == inp.id) _ hn] at h
      cases h
    · rw [List.find?_cons_of_neg (p := fun x : GraphNode => x.id == inp.id) _ hn] at h
      simp only [addNodeList]
      rw [if_neg hn, List.find?_cons_of_neg (p := fun x : GraphNode => x.id == inp.id) _ hn]
      exact ih h

lemma getNode_addNodes_of_some (g : GraphData) (batch : List NodeInput) (i : String)
    (n : GraphNode) (h : getNode g i = some n) : getNode (addNodes g batch) i = some n := by
  show (g.nodes ++ _).find? _ = _
  rw [List.find?_append]
  unfold getNode at h
  rw [h]
  rfl

lemma find?_map_update (ns : List GraphNode) (i : String) (φ : GraphNode → GraphNode)
    (hid : ∀ n, (φ n).id = n.id) :
    (ns.map (fun n => if n.id == i then φ n else n)).find? (fun n => n.id == i) =
      (ns.find? (fun n => n.id == i)).map φ := by
  induction ns with
  | nil => rfl
  | cons n ns ih =>
    by_cases h : n.id == i
    · simp only [List.map_cons, if_pos h]
      rw [List.find?_cons_of_pos (p := fun x : GraphNode => x.id == i) _
          (by show ((φ n).id == i) = true; rw [hid]; exact h),
        List.find?_cons_of_pos (p := fun x : GraphNode => x.id == i) _ h]
      rfl
    · simp only [List.map_cons, if_neg h]
      rw [List.find?_cons_of_neg (p := fun x : GraphNode => x.id == i) _ h,
        List.find?_cons_of_neg (p := fun x : GraphNode => x.id == i) _ h]
      exact ih

lemma getNode_setNodeExpanded (g : GraphData) (i : String) (b : Bool) :
    getNode (setNodeExpanded g i b) i =
      (getNode g i).map (fun n => { n with isExpanded := b }) :=
  find?_map_update g.nodes i _ (fun _ => rfl)

lemma getNode_updateNodePagination (g : GraphData) (i : String) (L O : Nat) (H : Bool) :
    getNode (updateNodePagination g i L O H) i =
      (getNode g i).map (fun n =>
        { n with loadedTransactions := L, currentOffset := O, hasMoreTransactions := H }) :=
  find?_map_update g.nodes i _ (fun _ => rfl)

lemma beginLoad_graphData (s : HookState) (address : String) :
    (beginLoad s address).1.graphData = s.graphData := by
  unfold beginLoad setNodeLoading isNodeLoading
  by_cases h : address ∈ s.loadingNodes <;> simp [h]

lemma finishLoad_graphData (s : HookState) (address : String) :
    (finishLoad s address).graphData = s.graphData := rfl

lemma applySuccess_graphData_congr (s t : HookState) (address : String)
    (level offset : Nat) (lm : Bool) (d : AddressData) (h : s.graphData = t.graphData) :
    (applySuccess s address level offset lm d).graphData =
      (applySuccess t address level offset lm d).graphData := by
  simp only [applySuccess, h]

lemma loadAddressData_ok_graphData (s : HookState) (address : String)
    (level limit offset : Nat) (lm : Bool) (d : AddressData)
    (h : isNodeLoading s address = false) :
    (loadAddressData s address level limit offset lm (.ok d)).1.graphData =
      (applySuccess s address level offset lm d).graphData := by
  unfold loadAddressData
  rw [if_neg (by simp [h])]
  show (finishLoad (applySuccess (beginLoad s address).1 address level offset lm d)
    address).graphData = _
  rw [finishLoad_graphData]
  exact applySuccess_graphData_congr _ _ _ _ _ _ _ (beginLoad_graphData s address)

lemma loadAddressData_error_graphData (s : HookState) (address : String)
    (level limit offset : Nat) (lm : Bool) (msg : String) :
    (loadAddressData s address level limit offset lm (.error msg)).1.graphData =
      s.graphData := by
  unfold loadAddressData
  by_cases h : isNodeLoading s address
  · rw [if_pos h]
  · rw [if_neg h]
    show (finishLoad (applyFailure (beginLoad s address).1 msg) address).graphData = _
    rw [finishLoad_graphData]
    show (beginLoad s address).1.graphData = _
    exact beginLoad_graphData s address

lemma applySuccess_getNode_first (s : HookState) (address : String) (level offset : Nat)
    (d : AddressData) (h : getNode s.graphData address = none) :
    getNode (applySuccess s address level offset false d).graphData address =
      some { freshNode (mainNodeInput address level offset d) with isExpanded := true } := by
  have h1 : getNode (addNode s.graphData (mainNodeInput address level offset d)) address =
      some (freshNode (mainNodeInput address level offset d)) :=
    addNodeList_find_none s.graphData.nodes (mainNodeInput address level offset d) h
  show getNode (setNodeExpanded (addLinks (addNodes
      (addNode s.graphData (mainNodeInput address level offset d))
      (extractRelated address level d.txs).nodes)
      (extractRelated address level d.txs).links) address true) address = _
  rw [getNode_setNodeExpanded]
  show (getNode (addNodes (addNode s.graphData (mainNodeInput address level offset d))
      (extractRelated address level d.txs).nodes) address).map _ = _
  rw [getNode_addNodes_of_some _ _ _ _ h1]
  rfl

lemma applySuccess_getNode_more (s : HookState) (address : String) (level offset : Nat)
    (d : AddressData) (nd0 : GraphNode) (h : getNode s.graphData address = some nd0) :
    getNode (applySuccess s address level offset true d).graphData address =
      some { nd0 with
        loadedTransactions := nd0.loadedTransactions + d.txs.length,
        currentOffset := offset + d.txs.length,
        hasMoreTransactions := decide (offset + d.txs.length < d.n_tx) } := by
  have h1 : getNode (updateNodePagination s.graphData address
      (((getNode s.graphData address).map (fun n => n.loadedTransactions)).getD 0 + d.txs.length)
      (offset + d.txs.length) (decide (offset + d.txs.length < d.n_tx))) address =
      some { nd0 with
        loadedTransactions := nd0.loadedTransactions + d.txs.length,
        currentOffset := offset + d.txs.length,
        hasMoreTransactions := decide (offset + d.txs.length < d.n_tx) } := by
    rw [getNode_updateNodePagination, h]
    rfl
  show getNode (addLinks (addNodes (updateNodePagination s.graphData address
      (((getNode s.graphData address).map (fun n => n.loadedTransactions)).getD 0 + d.txs.length)
      (offset + d.txs.length) (decide (offset + d.txs.length < d.n_tx)))
      (extractRelated address level d.txs).nodes)
      (extractRelated address level d.txs).links) address = _
  show getNode (addNodes (updateNodePagination s.graphData address
      (((getNode s.graphData address).map (fun n => n.loadedTransactions)).getD 0 + d.txs.length)
      (offset + d.txs.length) (decide (offset + d.txs.length < d.n_tx)))
      (extractRelated address level d.txs).nodes) address = _
  exact getNode_addNodes_of_some _ _ _ _ h1

/-! ## C7: pagination cursor arithmetic -/

/-- C7.  (1) A successful first-page fetch at offset 0 returning `p`
transactions gives the target node `loadedTransactions = p`,
`currentOffset = p` and `hasMoreTransactions = (p < n_tx)`, so
`currentOffset = loadedTransactions`.  (2) From the steady state
`loadedTransactions = currentOffset = c` with more available, a
`loadMore` (which fetches at the node's `currentOffset`) returning `q`
transactions gives `loadedTransactions = currentOffset = c + q` and
`hasMoreTransactions = (c + q < n_tx)` — hence the steady state is
preserved by every such step. -/
theorem claim_C7_pagination (s : HookState) (address : String) (level limit : Nat)
    (d d' : AddressData) (nd0 : GraphNode) (c : Nat) :
    (isNodeLoading s address = false → getNode s.graphData address = none →
      ∃ nd, getNode (loadAddressData s address level limit 0 false (.ok d)).1.graphData address
          = some nd ∧
        nd.loadedTransactions = d.txs.length ∧
        nd.currentOffset = d.txs.length ∧
        (nd.hasMoreTransactions = true ↔ d.txs.length < d.n_tx) ∧
        nd.currentOffset = nd.loadedTransactions) ∧
    (isNodeLoading s address = false → getNode s.graphData address = some nd0 →
      nd0.hasMoreTransactions = true → nd0.loadedTransactions = c → nd0.currentOffset = c →
      ∃ nd, getNode (loadMoreTransactions s address (.ok d')).1.graphData address = some nd ∧
        nd.loadedTransactions = c + d'.txs.length ∧
        nd.currentOffset = c + d'.txs.length ∧
        (nd.hasMoreTransactions = true ↔ c + d'.txs.length < d'.n_tx) ∧
        nd.currentOffset = nd.loadedTransactions) := by
  constructor
  · intro hload hnone
    rw [loadAddressData_ok_graphData _ _ _ _ _ _ _ hload,
      applySuccess_getNode_first _ _ _ _ _ hnone]
    refine ⟨_, rfl, rfl, ?_, ?_, ?_⟩
    · show 0 + d.txs.length = d.txs.length
      omega
    · show decide (0 + d.txs.length < d.n_tx) = true ↔ d.txs.length < d.n_tx
      rw [Nat.zero_add]
      simp
    · show 0 + d.txs.length = d.txs.length
      omega
  · intro hload hsome hmore hL hO
    simp only [loadMoreTransactions, hsome, hmore, Bool.not_true, Bool.false_eq_true,
      if_false]
    rw [loadAddressData_ok_graphData _ _ _ _ _ _ _ hload,
      applySuccess_getNode_more _ _ _ _ _ _ hsome]
    refine ⟨_, rfl, ?_, ?_, ?_, ?_⟩
    · show nd0.loadedTransactions + d'.txs.length = c + d'.txs.length
      rw [hL]
    · show nd0.currentOffset + d'.txs.length = c + d'.txs.length
      rw [hO]
    · show decide (nd0.currentOffset + d'.txs.length < d'.n_tx) = true ↔
        c + d'.txs.length < d'.n_tx
      rw [hO]
      simp
    · show nd0.currentOffset + d'.txs.length = nd0.loadedTransactions + d'.txs.length
      rw [hO, hL]

def sampleTxs (k : Nat) : List BitcoinTransaction :=
  (List.range k).map (fun i => { hash := toString i, time := i, inputs := [], out := [] })

def sampleData (n k : Nat) : AddressData :=
  { address := "W", n_tx := n, total_received := 0, total_sent := 0,
    final_balance := 0, txs := sampleTxs k }

def ndW : GraphNode :=
  { id := "W", label := "W", isExpanded := true, level := 0,
    loadedTransactions := 10, currentOffset := 10, hasMoreTransactions := true }

def sW : HookState := { graphData := { nodes := [ndW], links := [] } }

/-- C7, witness: the spec's 25-transaction scenario at the second page —
from `loaded = currentOffset = 10` of 25, a loadMore returning 10 more
gives `loaded = currentOffset = 20` and still has more. -/
theorem claim_C7_witness :
    (isNodeLoading sW "W" = false ∧ getNode sW.graphData "W" = some ndW ∧
      ndW.hasMoreTransactions = true ∧ ndW.loadedTransactions = 10 ∧
      ndW.currentOffset = 10) ∧
    (∃ nd, getNode (loadMoreTransactions sW "W" (.ok (sampleData 25 10))).1.graphData "W"
        = some nd ∧
      nd.loadedTransactions = 10 + (sampleData 25 10).txs.length ∧
      nd.currentOffset = 10 + (sampleData 25 10).txs.length ∧
      (nd.hasMoreTransactions = true ↔
        10 + (sampleData 25 10).txs.length < (sampleData 25 10).n_tx) ∧
      nd.currentOffset = nd.loadedTransactions) :=
  ⟨⟨rfl, rfl, rfl, rfl, rfl⟩,
    (claim_C7_pagination sW "W" 0 10 (sampleData 25 10) (sampleData 25 10) ndW 10).2
      rfl rfl rfl rfl rfl⟩

/-! ## C8: failure atomicity -/

lemma getCachedData_none_lookup (cache : Cache) (key : String) (now : Nat)
    (h : (getCachedData cache key now).1 = none) :
    ((getCachedData cache key now).2).find? (fun kv => kv.1 == key) = none := by
  unfold getCachedData at h ⊢
  rcases hf : cache.find? (fun kv => kv.1 == key) with _ | kv
  · simp only [hf]
  · simp only [hf] at h ⊢
    by_cases hTTL : now - kv.2.timestamp > CACHE_TTL
    · simp only [if_pos hTTL] at h ⊢
      rw [List.find?_eq_none]
      intro x hx hpx
      rcases List.mem_filter.mp hx with ⟨_, hne⟩
      rw [bne_iff_ne] at hne
      exact hne (eq_of_beq hpx)
    · simp only [if_neg hTTL] at h
      cases h

/-- C8.  (1) A failed fetch leaves the client's graph bit-for-bit
unchanged (nodes, links and pagination state included).  (2) On the
gateway, a cache miss followed by an upstream failure leaves no cache
entry under the request key — errors are never cached.  (3) A
successful `loadMore` never changes the target's `isExpanded`.  (4) A
successful first-page fetch marks the target `isExpanded = true`. -/
theorem claim_C8_failure_atomicity (s : HookState) (address : String)
    (level limit offset : Nat) (lm : Bool) (msg : String)
    (a : String) (rl : Option RateLimitEntry) (cache : Cache)
    (oracle : Nat → UpstreamResult) (now : Nat) (e : FetchErr)
    (d : AddressData) (nd0 : GraphNode) :
    ((loadAddressData s address level limit offset lm (.error msg)).1.graphData
      = s.graphData) ∧
    (a ≠ "" → (checkRateLimit rl now).1 = .allowed →
      (getCachedData cache (cacheKeyOf a limit offset) now).1 = none →
      (fetchFromBlockchain oracle 3).1 = .error e →
      ((gatewayGET (some a) limit offset rl cache oracle now).cache).find?
        (fun kv => kv.1 == cacheKeyOf a limit offset) = none) ∧
    (isNodeLoading s address = false → getNode s.graphData address = some nd0 →
      ∃ nd, getNode
          (loadAddressData s address level limit offset true (.ok d)).1.graphData address
          = some nd ∧ nd.isExpanded = nd0.isExpanded) ∧
    (isNodeLoading s address = false → getNode s.graphData address = none →
      ∃ nd, getNode
          (loadAddressData s address level limit offset false (.ok d)).1.graphData address
          = some nd ∧ nd.isExpanded = true) := by
  refine ⟨loadAddressData_error_graphData s address level limit offset lm msg, ?_, ?_, ?_⟩
  · intro ha hrl hmiss herr
    have hbeq : (a == "") = false := beq_eq_false_iff_ne.mpr ha
    have hc : (gatewayGET (some a) limit offset rl cache oracle now).cache =
        (getCachedData cache (cacheKeyOf a limit offset) now).2 := by
      cases e with
      | rateLimitExceeded ra =>
        simp only [gatewayGET, hbeq, Bool.false_eq_true, if_false, hrl, hmiss, herr]
      | apiError st =>
        simp only [gatewayGET, hbeq, Bool.false_eq_true, if_false, hrl, hmiss, herr]
      | network m =>
        simp only [gatewayGET, hbeq, Bool.false_eq_true, if_false, hrl, hmiss, herr]
    rw [hc]
    exact getCachedData_none_lookup _ _ _ hmiss
  · intro hload hsome
    rw [loadAddressData_ok_graphData _ _ _ _ _ _ _ hload,
      applySuccess_getNode_more _ _ _ _ _ _ hsome]
    exact ⟨_, rfl, rfl⟩
  · intro hload hnone
    rw [loadAddressData_ok_graphData _ _ _ _ _ _ _ hload,
      applySuccess_getNode_first _ _ _ _ _ hnone]
    exact ⟨_, rfl, rfl⟩

/-- C8, witness: with an empty cache, an always-failing upstream (three
network errors) leaves the cache without an entry for the key; and a
failed client fetch leaves the graph unchanged. -/
theorem claim_C8_witness :
    ((loadAddressData sW "W" 0 10 0 false (.error "boom")).1.graphData = sW.graphData) ∧
    (("addr" : String) ≠ "" ∧
      (checkRateLimit none 0).1 = .allowed ∧
      (getCachedData [] (cacheKeyOf "addr" 10 0) 0).1 = none ∧
      (fetchFromBlockchain (fun _ => .netError "down") 3).1 = .error (.network "down")) ∧
    ((gatewayGET (some "addr") 10 0 none [] (fun _ => .netError "down") 0).cache).find?
      (fun kv => kv.1 == cacheKeyOf "addr" 10 0) = none := by
  refine ⟨?_, ⟨by decide, rfl, rfl, rfl⟩, ?_⟩
  · exact (claim_C8_failure_atomicity sW "W" 0 10 0 false "boom" "addr" none []
      (fun _ => .netError "down") 0 (.network "down") emptyAddressData ndW).1
  · exact (claim_C8_failure_atomicity sW "W" 0 10 0 false "boom" "addr" none []
      (fun _ => .netError "down") 0 (.network "down") emptyAddressData ndW).2.1
      (by decide) rfl rfl rfl
